import Mathlib

/-!
# Valorant-Triger-Detector: click window, timing classifier, injection hook

A shallow embedding of `ValorantTrigerDetector.cpp`.

* The global `std::vector<ClickEvent> clickEvents` is passed explicitly as a
  `List ClickEvent` (front of the list = index 0 of the vector).
* `std::chrono::steady_clock::time_point` is an integer count of clock ticks.
  The tick period is one nanosecond (the `steady_clock::period` of the
  toolchains this Windows program builds with), so `seconds(10)` is
  `10 * 10^9` ticks and `duration_cast<milliseconds>` divides by `10^6`,
  truncating toward zero.  Clock readings are non-negative 64-bit values, for
  which neither `now - seconds(10)` nor the difference of two readings leaves
  the 64-bit range (`clock_arithmetic_in_range`), so the arithmetic is done in
  `Int`.
* `steady_clock::now()` is an input of the embedding (`now`).
* Console output is returned as the list of lines written.
-/

namespace ValorantTrigerDetector

/-! ## Data model -/

/-- A recorded click: `struct ClickEvent { time_point time; int x; int y; }`. -/
structure ClickEvent where
  time : Int
  x : Int
  y : Int
deriving DecidableEq, Repr

/-- Ticks of `std::chrono::seconds(n)` on the nanosecond clock. -/
def seconds (n : Int) : Int := n * 1000000000

/-- The conversion `std::chrono::duration_cast<std::chrono::milliseconds>(d).count()`
for a nanosecond duration `d`: integer division by `10^6` truncating toward zero. -/
def duration_cast_ms (d : Int) : Int := Int.tdiv d 1000000

/-! ## Event window -/

/-- The erase-remove idiom `v.erase(std::remove_if(v.begin(), v.end(), pred), v.end())`:
`std::remove_if` moves the elements for which `pred` is false to the front,
keeping their relative order, and `erase` cuts off the rest. -/
def remove_if (pred : ClickEvent → Bool) : List ClickEvent → List ClickEvent
  | [] => []
  | e :: rest => if pred e then remove_if pred rest else e :: remove_if pred rest

/-- The prune step of `TrackMouseClick` (lines 113-116): erase every entry with
`e.time < cutoff`. -/
def prune (cutoff : Int) (clickEvents : List ClickEvent) : List ClickEvent :=
  remove_if (fun e => decide (e.time < cutoff)) clickEvents

/-- The function `TrackMouseClick(x, y)` with the clock reading `now`: push the new
event, then prune with `cutoff = now - seconds(10)`. -/
def TrackMouseClick (now : Int) (x y : Int) (clickEvents : List ClickEvent) :
    List ClickEvent :=
  let clickEvents := clickEvents ++ [{ time := now, x := x, y := y }]
  let cutoff := now - seconds 10
  prune cutoff clickEvents

/-- A run of `TrackMouseClick` calls, oldest first; each call is given as the event
it pushes (`time` is the clock reading of that call, `x`, `y` its arguments). -/
def recordAll (calls : List ClickEvent) (clickEvents : List ClickEvent) :
    List ClickEvent :=
  calls.foldl (fun w c => TrackMouseClick c.time c.x c.y w) clickEvents

/-! ## Timing classifier -/

/-- The loop `for (size_t i = 1; i < clickEvents.size(); ++i)` of
`IsSuspiciousClickPattern`, entered at index `i`.  `fuel` bounds the number of
iterations still to run; `clickEvents.size() - i` is always enough
(`IsSuspiciousLoop_fuel`). -/
def IsSuspiciousLoop (clickEvents : List ClickEvent) : Nat → Nat → Bool
  | 0, _ => false
  | fuel + 1, i =>
    if h : i < clickEvents.length then
      let duration :=
        duration_cast_ms (clickEvents[i].time - (clickEvents[i - 1]).time)
      if duration < 20 then true
      else IsSuspiciousLoop clickEvents fuel (i + 1)
    else false

/-- The function `IsSuspiciousClickPattern()` on the window `clickEvents`. -/
def IsSuspiciousClickPattern (clickEvents : List ClickEvent) : Bool :=
  if clickEvents.length < 2 then false
  else IsSuspiciousLoop clickEvents clickEvents.length 1

/-! ## Raw input handler -/

/-- Modelled from the spec: the device-type tag "mouse" of a raw input event.
The repository takes `RIM_TYPEMOUSE` from `<windows.h>`, which is not part of
it; the value is the one of the Windows SDK (`#define RIM_TYPEMOUSE 0`). -/
def RIM_TYPEMOUSE : Nat := 0

/-- Modelled from the spec: the "left button down" bit of the button-state
flags, `RI_MOUSE_LEFT_BUTTON_DOWN` of `<windows.h>` (Windows SDK value 0x0001). -/
def RI_MOUSE_LEFT_BUTTON_DOWN : Nat := 0x0001

/-- The fields of `RAWINPUT` that `ProcessRawInput` reads from the buffer `lpb`:
`header.dwType`, `data.mouse.usButtonFlags`, `data.mouse.lLastX`,
`data.mouse.lLastY`. -/
structure RAWINPUT where
  dwType : Nat
  usButtonFlags : Nat
  lLastX : Int
  lLastY : Int
deriving DecidableEq, Repr

/-- What the operating system answers during one `ProcessRawInput(lParam)`:
`dwSize` is the size stored by the first `GetRawInputData` call, `lpbNull`
whether the allocation yielded a null pointer, `copied` the return value of the
second `GetRawInputData` call and `raw` the buffer contents after it. -/
structure RawInputDelivery where
  dwSize : Nat
  lpbNull : Bool
  copied : Nat
  raw : RAWINPUT
deriving DecidableEq, Repr

/-- The effect of one `ProcessRawInput` call: the window afterwards and the
lines written to `std::cerr` and `std::cout`. -/
structure ProcessResult where
  clickEvents : List ClickEvent
  cerr : List String
  cout : List String
deriving DecidableEq, Repr

/-- The function `ProcessRawInput(lParam)`; `now` is the clock reading
`TrackMouseClick` takes if it is called. -/
def ProcessRawInput (d : RawInputDelivery) (now : Int)
    (clickEvents : List ClickEvent) : ProcessResult :=
  if d.lpbNull then
    { clickEvents := clickEvents, cerr := [], cout := [] }
  else
    let cerr :=
      if d.copied ≠ d.dwSize then ["GetRawInputData does not return correct size."]
      else []
    if d.raw.dwType = RIM_TYPEMOUSE then
      if d.raw.usButtonFlags &&& RI_MOUSE_LEFT_BUTTON_DOWN ≠ 0 then
        let clickEvents := TrackMouseClick now d.raw.lLastX d.raw.lLastY clickEvents
        if IsSuspiciousClickPattern clickEvents then
          { clickEvents := clickEvents, cerr := cerr,
            cout := ["Suspicious mouse click pattern detected!"] }
        else
          { clickEvents := clickEvents, cerr := cerr, cout := [] }
      else
        { clickEvents := clickEvents, cerr := cerr, cout := [] }
    else
      { clickEvents := clickEvents, cerr := cerr, cout := [] }

/-! ## Low-level mouse hook -/

/-- Modelled from the spec: the hook code under which the hook procedure must
process the event, `HC_ACTION` of `<windows.h>` (Windows SDK value 0). -/
def HC_ACTION : Int := 0

/-- Modelled from the spec: the "injected" bit `LLMHF_INJECTED` (0x1) of
`<windows.h>`. -/
def LLMHF_INJECTED : Nat := 0x00000001

/-- Modelled from the spec: the "lower-integrity-level-injected" bit
`LLMHF_LOWER_IL_INJECTED` (0x2) of `<windows.h>`. -/
def LLMHF_LOWER_IL_INJECTED : Nat := 0x00000002

/-- The event struct `MSLLHOOKSTRUCT` behind `lParam`; `flags` is a `DWORD`. -/
structure MSLLHOOKSTRUCT where
  ptX : Int
  ptY : Int
  mouseData : Nat
  flags : Nat
  time : Nat
  dwExtraInfo : Nat
deriving DecidableEq, Repr

/-- The effect of one `LowLevelMouseProc` call: the `LRESULT` returned, whether
`CallNextHookEx` was called, and the lines written to `std::cout`. -/
structure HookResult where
  result : Int
  calledNext : Bool
  cout : List String
deriving DecidableEq, Repr

/-- The function `LowLevelMouseProc(nCode, wParam, lParam)`.  `lParam` is the
pointer to the event struct (`none` = null) and `CallNextHookEx` the result the
next hook in the chain gives for the same arguments. -/
def LowLevelMouseProc
    (CallNextHookEx : Int → Nat → Option MSLLHOOKSTRUCT → Int)
    (nCode : Int) (wParam : Nat) (lParam : Option MSLLHOOKSTRUCT) : HookResult :=
  let next : HookResult :=
    { result := CallNextHookEx nCode wParam lParam, calledNext := true, cout := [] }
  if nCode = HC_ACTION then
    match lParam with
    | some pMouseStruct =>
      if pMouseStruct.flags &&& LLMHF_INJECTED ≠ 0
          || pMouseStruct.flags &&& LLMHF_LOWER_IL_INJECTED ≠ 0 then
        { result := 1, calledNext := false, cout := ["Emulated mouse input detected!"] }
      else next
    | none => next
  else next

/-! ## Specification vocabulary -/

/-- The timestamps of `w` are non-decreasing from front to back:
`t1 ≤ t2 ≤ ... ≤ tn`. -/
def NonDecreasing : List ClickEvent → Prop
  | [] => True
  | [_] => True
  | a :: b :: rest => a.time ≤ b.time ∧ NonDecreasing (b :: rest)

/-- Decision procedure for `NonDecreasing`, by the same recursion. -/
def NonDecreasing.dec : (w : List ClickEvent) → Decidable (NonDecreasing w)
  | [] => isTrue (by simp [NonDecreasing])
  | [_] => isTrue (by simp [NonDecreasing])
  | a :: b :: rest =>
    match NonDecreasing.dec (b :: rest) with
    | isTrue h =>
      if hab : a.time ≤ b.time then isTrue (by simp [NonDecreasing, hab, h])
      else isFalse (by simp [NonDecreasing, hab])
    | isFalse h => isFalse (by simp [NonDecreasing, h])

instance (w : List ClickEvent) : Decidable (NonDecreasing w) := NonDecreasing.dec w

/-- The window invariant relative to the clock reading `now` of the most recent
`TrackMouseClick` call: timestamps are non-decreasing and each lies in
`[now - 10s, now]`. -/
def WindowInv (now : Int) (w : List ClickEvent) : Prop :=
  NonDecreasing w ∧ ∀ e ∈ w, now - seconds 10 ≤ e.time ∧ e.time ≤ now

/-- Two sequence-adjacent entries (`a` older, `b` newer) are at least 20 whole
milliseconds apart. -/
def SlowPair (a b : ClickEvent) : Prop :=
  20 ≤ duration_cast_ms (b.time - a.time)

instance (a b : ClickEvent) : Decidable (SlowPair a b) :=
  inferInstanceAs (Decidable (20 ≤ duration_cast_ms (b.time - a.time)))

/-! ## Lemmas on the event window -/

theorem clock_arithmetic_in_range (a now : Int)
    (ha : 0 ≤ a ∧ a < 2 ^ 63) (hn : 0 ≤ now ∧ now < 2 ^ 63) :
    (-(2 ^ 63) ≤ now - a ∧ now - a < 2 ^ 63) ∧
    (-(2 ^ 63) ≤ now - seconds 10 ∧ now - seconds 10 < 2 ^ 63) := by
  unfold seconds
  omega

theorem remove_if_eq_filter (pred : ClickEvent → Bool) (w : List ClickEvent) :
    remove_if pred w = w.filter (fun e => !pred e) := by
  induction w with
  | nil => rfl
  | cons e rest ih =>
    by_cases h : pred e = true <;> simp [remove_if, List.filter, h, ih]

theorem prune_eq_filter (cutoff : Int) (w : List ClickEvent) :
    prune cutoff w = w.filter (fun e => decide (cutoff ≤ e.time)) := by
  unfold prune
  rw [remove_if_eq_filter]
  congr 1
  funext e
  by_cases h : e.time < cutoff
  · have : ¬ cutoff ≤ e.time := by omega
    simp [h, this]
  · have : cutoff ≤ e.time := by omega
    simp [h, this]

theorem TrackMouseClick_eq (now x y : Int) (w : List ClickEvent) :
    TrackMouseClick now x y w
      = w.filter (fun e => decide (now - seconds 10 ≤ e.time))
          ++ [{ time := now, x := x, y := y }] := by
  unfold TrackMouseClick
  simp only [prune_eq_filter, List.filter_append]
  congr 1
  have : now - seconds 10 ≤ now := by unfold seconds; omega
  simp [List.filter, this]

theorem nonDecreasing_iff_pairwise (w : List ClickEvent) :
    NonDecreasing w ↔ w.Pairwise (fun a b => a.time ≤ b.time) := by
  induction w with
  | nil => simp [NonDecreasing]
  | cons a rest ih =>
    cases rest with
    | nil => simp [NonDecreasing]
    | cons b rest =>
      simp only [NonDecreasing, ih, List.pairwise_cons]
      constructor
      · rintro ⟨hab, hb, hrest⟩
        refine ⟨?_, hb, hrest⟩
        intro c hc
        rcases List.mem_cons.1 hc with rfl | hc
        · exact hab
        · exact le_trans hab (hb c hc)
      · rintro ⟨ha, hb, hrest⟩
        exact ⟨ha b (List.mem_cons_self _ _), hb, hrest⟩

theorem recordAll_snoc (calls : List ClickEvent) (c : ClickEvent) (w : List ClickEvent) :
    recordAll (calls ++ [c]) w = TrackMouseClick c.time c.x c.y (recordAll calls w) := by
  simp [recordAll, List.foldl_append]

/-- After a run of calls with non-decreasing clock readings from the empty
window, the window holds the pushed events not older than ten seconds before
the last reading, in arrival order. -/
theorem recordAll_eq_filter (calls : List ClickEvent) (hs : NonDecreasing calls)
    (l : ClickEvent) (hl : calls.getLast? = some l) :
    recordAll calls [] = calls.filter (fun e => decide (l.time - seconds 10 ≤ e.time)) := by
  induction calls using List.reverseRecOn generalizing l with
  | nil => simp at hl
  | append_singleton cs c ih =>
    have hlc : l = c := by simpa using hl.symm
    subst hlc
    rw [recordAll_snoc, TrackMouseClick_eq, List.filter_append]
    have hlast : [l].filter (fun e => decide (l.time - seconds 10 ≤ e.time)) = [l] := by
      have : l.time - seconds 10 ≤ l.time := by unfold seconds; omega
      simp [List.filter, this]
    rw [hlast]
    congr 1
    rw [nonDecreasing_iff_pairwise, List.pairwise_append] at hs
    obtain ⟨hcs, -, hle⟩ := hs
    rcases List.eq_nil_or_concat cs with hnil | ⟨cs2, p, hp⟩
    · subst hnil; simp [recordAll]
    · have hpl : cs.getLast? = some p := by rw [hp]; simp
      rw [ih ((nonDecreasing_iff_pairwise cs).2 hcs) p hpl, List.filter_filter]
      apply List.filter_congr
      intro e he
      have h1 : p.time ≤ l.time := hle p (by rw [hp]; simp) l (by simp)
      have h2 : e.time ≤ p.time := by
        rw [hp, List.concat_eq_append, List.pairwise_append] at hcs
        rw [hp, List.concat_eq_append, List.mem_append] at he
        rcases he with he | he
        · exact hcs.2.2 e he p (by simp)
        · simp at he; rw [he]
      by_cases h3 : l.time - seconds 10 ≤ e.time
      · have : p.time - seconds 10 ≤ e.time := by omega
        simp [h3, this]
      · simp [h3]

/-! ## Lemmas on the timing classifier -/

/-- The loop entered at `i ≥ 1` with enough fuel answers `true` exactly when some
index `j ≥ i` has entries `j - 1` and `j` less than 20 whole milliseconds apart. -/
theorem IsSuspiciousLoop_iff (w : List ClickEvent) (fuel i : Nat)
    (hf : w.length ≤ fuel + i) :
    IsSuspiciousLoop w fuel i = true ↔
      ∃ j a b, i ≤ j ∧ w[j - 1]? = some a ∧ w[j]? = some b ∧
        duration_cast_ms (b.time - a.time) < 20 := by
  induction fuel generalizing i with
  | zero =>
    simp only [IsSuspiciousLoop, Bool.false_eq_true, false_iff]
    rintro ⟨j, a, b, hj, -, hb, -⟩
    have := (List.getElem?_eq_some_iff.1 hb).1
    omega
  | succ fuel ih =>
    unfold IsSuspiciousLoop
    by_cases h : i < w.length
    · simp only [h, dite_true]
      by_cases hd : duration_cast_ms (w[i].time - (w[i - 1]).time) < 20
      · simp only [hd, if_true, true_iff]
        refine ⟨i, w[i - 1], w[i], le_refl i, ?_, ?_, hd⟩
        · exact List.getElem?_eq_getElem (by omega)
        · exact List.getElem?_eq_getElem h
      · simp only [hd, if_false]
        rw [ih (i + 1) (by omega)]
        constructor
        · rintro ⟨j, a, b, hj, ha, hb, hlt⟩
          exact ⟨j, a, b, by omega, ha, hb, hlt⟩
        · rintro ⟨j, a, b, hj, ha, hb, hlt⟩
          refine ⟨j, a, b, ?_, ha, hb, hlt⟩
          by_contra hne
          have hji : j = i := by omega
          subst hji
          rw [List.getElem?_eq_getElem h] at hb
          rw [List.getElem?_eq_getElem (show j - 1 < w.length by omega)] at ha
          have ha2 : w[j - 1] = a := Option.some.inj ha
          have hb2 : w[j] = b := Option.some.inj hb
          rw [← ha2, ← hb2] at hlt
          exact hd hlt
    · simp only [h, dite_false, Bool.false_eq_true, false_iff]
      rintro ⟨j, a, b, hj, -, hb, -⟩
      have := (List.getElem?_eq_some_iff.1 hb).1
      omega

/-- The loop's answer does not depend on the fuel once it covers the
`size - i` iterations that remain. -/
theorem IsSuspiciousLoop_fuel (w : List ClickEvent) (fuel i : Nat)
    (hf : w.length - i ≤ fuel) :
    IsSuspiciousLoop w fuel i = IsSuspiciousLoop w (w.length - i) i := by
  rw [Bool.eq_iff_iff, IsSuspiciousLoop_iff w fuel i (by omega),
    IsSuspiciousLoop_iff w (w.length - i) i (by omega)]

theorem IsSuspiciousClickPattern_iff (w : List ClickEvent) :
    IsSuspiciousClickPattern w = true ↔
      ∃ j a b, 1 ≤ j ∧ w[j - 1]? = some a ∧ w[j]? = some b ∧
        duration_cast_ms (b.time - a.time) < 20 := by
  unfold IsSuspiciousClickPattern
  by_cases h : w.length < 2
  · simp only [h, if_true, Bool.false_eq_true, false_iff]
    rintro ⟨j, a, b, hj, -, hb, -⟩
    have := (List.getElem?_eq_some_iff.1 hb).1
    omega
  · simp only [h, if_false]
    exact IsSuspiciousLoop_iff w w.length 1 (by omega)

/-- The classifier answers `false` exactly when every pair of adjacent entries
is a slow pair. -/
theorem IsSuspiciousClickPattern_eq_false_iff (w : List ClickEvent) :
    IsSuspiciousClickPattern w = false ↔ w.Chain' SlowPair := by
  rw [← Bool.not_eq_true, IsSuspiciousClickPattern_iff, List.chain'_iff_get]
  constructor
  · intro hno i hi
    unfold SlowPair
    by_contra hlt
    apply hno
    refine ⟨i + 1, w.get ⟨i, by omega⟩, w.get ⟨i + 1, by omega⟩, by omega, ?_, ?_,
      by omega⟩
    · simp [List.getElem?_eq_getElem (show i < w.length by omega)]
    · simp [List.getElem?_eq_getElem (show i + 1 < w.length by omega)]
  · rintro hall ⟨j, a, b, hj, ha, hb, hlt⟩
    obtain ⟨hjl, hbe⟩ := List.getElem?_eq_some_iff.1 hb
    obtain ⟨hjl2, hae⟩ := List.getElem?_eq_some_iff.1 ha
    have := hall (j - 1) (by omega)
    unfold SlowPair at this
    have e1 : w.get ⟨j - 1, by omega⟩ = a := by simpa using hae
    have e2 : w.get ⟨j - 1 + 1, by omega⟩ = b := by
      have hj1 : j - 1 + 1 = j := by omega
      simp only [List.get_eq_getElem, hj1]
      exact hbe
    rw [e1, e2] at this
    omega

theorem duration_cast_ms_lt_20_iff (g : Int) :
    duration_cast_ms g < 20 ↔ g < 20000000 := by
  unfold duration_cast_ms
  by_cases hg : 0 ≤ g
  · rw [Int.tdiv_eq_ediv hg (by decide)]
    omega
  · have hneg : g = -(-g) := by omega
    rw [hneg, Int.neg_tdiv, Int.tdiv_eq_ediv (by omega) (by decide)]
    omega

theorem nonDecreasing_filter (p : ClickEvent → Bool) (w : List ClickEvent)
    (h : NonDecreasing w) : NonDecreasing (w.filter p) := by
  rw [nonDecreasing_iff_pairwise] at h ⊢
  exact h.sublist (List.filter_sublist w)

/-- One `TrackMouseClick` call at a clock reading not before the previous one
keeps the window invariant. -/
theorem TrackMouseClick_preserves (w : List ClickEvent) (now now2 x y : Int)
    (hinv : WindowInv now w) (hle : now ≤ now2) :
    WindowInv now2 (TrackMouseClick now2 x y w) := by
  obtain ⟨hs, hb⟩ := hinv
  rw [TrackMouseClick_eq]
  have h10 : now2 - seconds 10 ≤ now2 := by unfold seconds; omega
  constructor
  · rw [nonDecreasing_iff_pairwise, List.pairwise_append]
    refine ⟨(nonDecreasing_iff_pairwise _).1 (nonDecreasing_filter _ w hs), by simp, ?_⟩
    intro a ha b hb2
    have hb3 : b.time = now2 := by
      simp only [List.mem_singleton] at hb2
      rw [hb2]
    have := (hb a (List.mem_filter.1 ha).1).2
    omega
  · intro e he
    rw [List.mem_append] at he
    rcases he with he | he
    · obtain ⟨hmem, hk⟩ := List.mem_filter.1 he
      have := (hb e hmem).2
      have hk2 : now2 - seconds 10 ≤ e.time := by simpa using hk
      omega
    · simp only [List.mem_singleton] at he
      subst he
      exact ⟨h10, le_refl _⟩

theorem recordAll_inv (calls : List ClickEvent) (hs : NonDecreasing calls)
    (l : ClickEvent) (hl : calls.getLast? = some l) :
    WindowInv l.time (recordAll calls []) := by
  induction calls using List.reverseRecOn generalizing l with
  | nil => simp at hl
  | append_singleton cs c ih =>
    have hlc : l = c := by simpa using hl.symm
    subst hlc
    rw [recordAll_snoc]
    rw [nonDecreasing_iff_pairwise, List.pairwise_append] at hs
    obtain ⟨hcs, -, hle⟩ := hs
    rcases List.eq_nil_or_concat cs with hnil | ⟨cs2, p, hp⟩
    · subst hnil
      exact TrackMouseClick_preserves [] l.time l.time l.x l.y
        ⟨by simp [NonDecreasing], by simp⟩ (le_refl _)
    · have hpl : cs.getLast? = some p := by rw [hp]; simp
      exact TrackMouseClick_preserves _ p.time l.time l.x l.y
        (ih ((nonDecreasing_iff_pairwise cs).2 hcs) p hpl)
        (hle p (by rw [hp]; simp) l (by simp))

/-! ## Lemmas on the hook and the raw input handler -/

theorem and_two_pow_ne_zero_iff (x i : Nat) : x &&& 2 ^ i ≠ 0 ↔ x.testBit i = true := by
  constructor
  · intro h
    by_contra hb
    apply h
    apply Nat.eq_of_testBit_eq
    intro j
    rw [Nat.testBit_and, Nat.testBit_two_pow, Nat.zero_testBit]
    by_cases hij : i = j
    · subst hij; simp [hb]
    · simp [hij]
  · intro hb h0
    have h1 : (x &&& 2 ^ i).testBit i = true := by
      rw [Nat.testBit_and, Nat.testBit_two_pow_self, hb]; rfl
    rw [h0, Nat.zero_testBit] at h1
    exact Bool.false_ne_true h1

theorem and_INJECTED_ne_zero_iff (flags : Nat) :
    flags &&& LLMHF_INJECTED ≠ 0 ↔ flags.testBit 0 = true :=
  and_two_pow_ne_zero_iff flags 0

theorem and_LOWER_IL_INJECTED_ne_zero_iff (flags : Nat) :
    flags &&& LLMHF_LOWER_IL_INJECTED ≠ 0 ↔ flags.testBit 1 = true :=
  and_two_pow_ne_zero_iff flags 1

theorem and_LEFT_BUTTON_DOWN_ne_zero_iff (flags : Nat) :
    flags &&& RI_MOUSE_LEFT_BUTTON_DOWN ≠ 0 ↔ flags.testBit 0 = true :=
  and_two_pow_ne_zero_iff flags 0

/-- The hook on an `HC_ACTION` call with a non-null event struct. -/
theorem LowLevelMouseProc_action (next : Int → Nat → Option MSLLHOOKSTRUCT → Int)
    (wParam : Nat) (s : MSLLHOOKSTRUCT) :
    LowLevelMouseProc next HC_ACTION wParam (some s)
      = if s.flags.testBit 0 = true ∨ s.flags.testBit 1 = true then
          { result := 1, calledNext := false, cout := ["Emulated mouse input detected!"] }
        else
          { result := next HC_ACTION wParam (some s), calledNext := true, cout := [] } := by
  unfold LowLevelMouseProc
  have e0 : s.flags &&& LLMHF_INJECTED = 0 ↔ ¬ s.flags.testBit 0 = true := by
    rw [← and_INJECTED_ne_zero_iff, not_not]
  have e1 : s.flags &&& LLMHF_LOWER_IL_INJECTED = 0 ↔ ¬ s.flags.testBit 1 = true := by
    rw [← and_LOWER_IL_INJECTED_ne_zero_iff, not_not]
  by_cases h0 : s.flags.testBit 0 = true <;> by_cases h1 : s.flags.testBit 1 = true <;>
    simp [e0, e1, h0, h1]

/-! ## Lemmas on pruning a sorted window -/

/-- Pruning a window with non-decreasing timestamps removes only entries at the
front: what is left is a suffix of the window. -/
theorem filter_suffix_of_pairwise (c : Int) (w : List ClickEvent)
    (hs : w.Pairwise (fun a b => a.time ≤ b.time)) :
    w.filter (fun e => decide (c ≤ e.time)) <:+ w := by
  induction w with
  | nil => simp
  | cons a rest ih =>
    rw [List.pairwise_cons] at hs
    by_cases hca : c ≤ a.time
    · have hall : (a :: rest).filter (fun e => decide (c ≤ e.time)) = a :: rest := by
        rw [List.filter_eq_self]
        intro e he
        rcases List.mem_cons.1 he with rfl | he
        · simpa using hca
        · have := hs.1 e he
          simp only [decide_eq_true_eq]
          omega
      rw [hall]
    · have hdrop : (a :: rest).filter (fun e => decide (c ≤ e.time))
          = rest.filter (fun e => decide (c ≤ e.time)) := by
        simp [List.filter, hca]
      rw [hdrop]
      exact (ih hs.2).trans (List.suffix_cons a rest)

theorem getLast?_of_suffix (s w : List ClickEvent) (x : ClickEvent)
    (hsw : s <:+ w) (hx : s.getLast? = some x) : w.getLast? = some x := by
  obtain ⟨t, rfl⟩ := hsw
  have hne : s ≠ [] := by
    rintro rfl
    simp at hx
  rw [List.getLast?_append_of_ne_nil _ hne, hx]

theorem split_at_adjacent (w : List ClickEvent) (i : Nat) (a b : ClickEvent)
    (hi : 1 ≤ i) (ha : w[i - 1]? = some a) (hb : w[i]? = some b) :
    ∃ l1 l2, w = l1 ++ a :: b :: l2 := by
  obtain ⟨hil, hbe⟩ := List.getElem?_eq_some_iff.1 hb
  obtain ⟨hil2, hae⟩ := List.getElem?_eq_some_iff.1 ha
  refine ⟨w.take (i - 1), w.drop (i + 1), ?_⟩
  have h1 : w.drop (i - 1) = w[i - 1] :: w.drop (i - 1 + 1) := List.drop_eq_getElem_cons hil2
  have h2 : w.drop i = w[i] :: w.drop (i + 1) := List.drop_eq_getElem_cons hil
  have hii : i - 1 + 1 = i := by omega
  rw [hii] at h1
  rw [← hae, ← hbe, ← h2, ← h1, List.take_append_drop]

/-! ## Scenarios of the specification -/

/-- Scenario A: clicks at 0 ms, 5 ms and 15000 ms leave only the last entry, and the
classifier answers `false`. -/
theorem scenario_A :
    recordAll [⟨0, 1, 2⟩, ⟨5000000, 3, 4⟩, ⟨15000000000, 5, 6⟩] [] = [⟨15000000000, 5, 6⟩] ∧
    IsSuspiciousClickPattern
      (recordAll [⟨0, 1, 2⟩, ⟨5000000, 3, 4⟩, ⟨15000000000, 5, 6⟩] []) = false := by
  decide

/-- Scenario B: clicks at 0 ms and 10 ms are classified suspicious. -/
theorem scenario_B :
    IsSuspiciousClickPattern (recordAll [⟨0, 0, 0⟩, ⟨10000000, 0, 0⟩] []) = true := by
  decide

/-- Scenario C: clicks at 0 ms, 100 ms and 105 ms are classified suspicious. -/
theorem scenario_C :
    IsSuspiciousClickPattern
      (recordAll [⟨0, 0, 0⟩, ⟨100000000, 0, 0⟩, ⟨105000000, 0, 0⟩] []) = true := by
  decide

/-- Scenario D: a low-level event with the "injected" flag is blocked. -/
theorem scenario_D (next : Int → Nat → Option MSLLHOOKSTRUCT → Int) :
    LowLevelMouseProc next HC_ACTION 0x0201 (some ⟨10, 20, 0, 1, 0, 0⟩)
      = { result := 1, calledNext := false, cout := ["Emulated mouse input detected!"] } := by
  rfl

/-! ## Claims -/

/-- C1, as stated (strict horizon), fails: clicks recorded at tick 0 and at
exactly 10 s leave both entries in the window, while the subsequence with
`ti > tn - 10s` holds only the second. -/
theorem window_horizon_strict_fails :
    NonDecreasing [⟨0, 0, 0⟩, ⟨10000000000, 0, 0⟩] ∧
    recordAll [⟨0, 0, 0⟩, ⟨10000000000, 0, 0⟩] []
      = [⟨0, 0, 0⟩, ⟨10000000000, 0, 0⟩] ∧
    ([⟨0, 0, 0⟩, ⟨10000000000, 0, 0⟩] : List ClickEvent).filter
        (fun e => decide (e.time > 10000000000 - seconds 10))
      = [⟨10000000000, 0, 0⟩] ∧
    recordAll [⟨0, 0, 0⟩, ⟨10000000000, 0, 0⟩] []
      ≠ ([⟨0, 0, 0⟩, ⟨10000000000, 0, 0⟩] : List ClickEvent).filter
          (fun e => decide (e.time > 10000000000 - seconds 10)) := by
  decide

/-- C1 (amended): for every non-decreasing sequence of clock readings, recording
them one after another with `TrackMouseClick` from the empty window leaves
exactly the subsequence of pushed events with `ti ≥ tn - 10s`, in arrival
order, where `tn` is the last reading. -/
theorem window_horizon (calls : List ClickEvent) (l : ClickEvent)
    (hs : NonDecreasing calls) (hl : calls.getLast? = some l) :
    recordAll calls []
      = calls.filter (fun e => decide (e.time ≥ l.time - seconds 10)) :=
  recordAll_eq_filter calls hs l hl

/-- C1 witness: readings 0 s, 5 s, 10 s, 12 s; the entry at 0 s is dropped, the
other three stay. -/
theorem window_horizon_witness :
    NonDecreasing [⟨0, 1, 2⟩, ⟨5000000000, 3, 4⟩, ⟨10000000000, 5, 6⟩, ⟨12000000000, 7, 8⟩] ∧
    recordAll [⟨0, 1, 2⟩, ⟨5000000000, 3, 4⟩, ⟨10000000000, 5, 6⟩, ⟨12000000000, 7, 8⟩] []
      = ([⟨0, 1, 2⟩, ⟨5000000000, 3, 4⟩, ⟨10000000000, 5, 6⟩, ⟨12000000000, 7, 8⟩] :
          List ClickEvent).filter
          (fun e => decide (e.time ≥ (⟨12000000000, 7, 8⟩ : ClickEvent).time - seconds 10)) :=
  ⟨by decide, window_horizon _ ⟨12000000000, 7, 8⟩ (by decide) rfl⟩

/-- C2: `IsSuspiciousClickPattern` is true exactly when some index `i` with
`1 ≤ i < size` has entries `i - 1` and `i` less than 20 truncated milliseconds
apart; windows with 0 or 1 entries are never suspicious; clicks at 0 ms,
100 ms, 105 ms are suspicious. -/
theorem timing_classifier_existential :
    (∀ w : List ClickEvent, IsSuspiciousClickPattern w = true ↔
      ∃ i a b, 1 ≤ i ∧ i < w.length ∧ w[i - 1]? = some a ∧ w[i]? = some b ∧
        duration_cast_ms (b.time - a.time) < 20) ∧
    IsSuspiciousClickPattern [] = false ∧
    (∀ e : ClickEvent, IsSuspiciousClickPattern [e] = false) ∧
    (∀ x0 y0 x1 y1 x2 y2 : Int, IsSuspiciousClickPattern
      [⟨0, x0, y0⟩, ⟨100000000, x1, y1⟩, ⟨105000000, x2, y2⟩] = true) := by
  refine ⟨?_, rfl, fun e => rfl, ?_⟩
  · intro w
    rw [IsSuspiciousClickPattern_iff]
    constructor
    · rintro ⟨i, a, b, hi, ha, hb, hlt⟩
      exact ⟨i, a, b, hi, (List.getElem?_eq_some_iff.1 hb).1, ha, hb, hlt⟩
    · rintro ⟨i, a, b, hi, -, ha, hb, hlt⟩
      exact ⟨i, a, b, hi, ha, hb, hlt⟩
  · intro x0 y0 x1 y1 x2 y2
    rw [IsSuspiciousClickPattern_iff]
    exact ⟨2, ⟨100000000, x1, y1⟩, ⟨105000000, x2, y2⟩, by omega, rfl, rfl,
      (duration_cast_ms_lt_20_iff _).2 (by simp)⟩

/-- C4: for a window of exactly two entries with gap `g = t2 - t1` nanoseconds,
`IsSuspiciousClickPattern` is true iff `g` truncated to whole milliseconds is
below 20, iff `g < 20,000,000`; gaps of 20 ms are not suspicious, gaps of 19 ms,
0 ms and 19.999999 ms are. -/
theorem two_entry_threshold :
    (∀ a b : ClickEvent,
      (IsSuspiciousClickPattern [a, b] = true ↔ duration_cast_ms (b.time - a.time) < 20) ∧
      (duration_cast_ms (b.time - a.time) < 20 ↔ b.time - a.time < 20000000)) ∧
    (∀ t x1 y1 x2 y2 : Int,
      IsSuspiciousClickPattern [⟨t, x1, y1⟩, ⟨t + 20000000, x2, y2⟩] = false ∧
      IsSuspiciousClickPattern [⟨t, x1, y1⟩, ⟨t + 19000000, x2, y2⟩] = true ∧
      IsSuspiciousClickPattern [⟨t, x1, y1⟩, ⟨t + 0, x2, y2⟩] = true ∧
      IsSuspiciousClickPattern [⟨t, x1, y1⟩, ⟨t + 19999999, x2, y2⟩] = true) := by
  have key : ∀ a b : ClickEvent,
      (IsSuspiciousClickPattern [a, b] = true ↔ duration_cast_ms (b.time - a.time) < 20) := by
    intro a b
    by_cases h : duration_cast_ms (b.time - a.time) < 20 <;>
      simp [IsSuspiciousClickPattern, IsSuspiciousLoop, h]
  refine ⟨fun a b => ⟨key a b, duration_cast_ms_lt_20_iff _⟩, ?_⟩
  intro t x1 y1 x2 y2
  refine ⟨?_, ?_, ?_, ?_⟩
  · rw [← Bool.not_eq_true, key, duration_cast_ms_lt_20_iff]
    simp
  · rw [key, duration_cast_ms_lt_20_iff]
    simp
  · rw [key, duration_cast_ms_lt_20_iff]
    simp
  · rw [key, duration_cast_ms_lt_20_iff]
    simp

/-- C7: `TrackMouseClick` at `now` yields the old window followed by the new
event with exactly the entries of timestamp `< now - 10s` removed, the others
keeping value and order; the new event is retained and is the last element. -/
theorem TrackMouseClick_prunes_exactly (w : List ClickEvent) (now x y : Int) :
    TrackMouseClick now x y w
      = (w ++ [({ time := now, x := x, y := y } : ClickEvent)]).filter (fun e => !decide (e.time < now - seconds 10)) ∧
    TrackMouseClick now x y w
      = w.filter (fun e => !decide (e.time < now - seconds 10)) ++ [({ time := now, x := x, y := y } : ClickEvent)] ∧
    (TrackMouseClick now x y w).getLast? = some ({ time := now, x := x, y := y } : ClickEvent) := by
  have h1 : TrackMouseClick now x y w
      = (w ++ [({ time := now, x := x, y := y } : ClickEvent)]).filter (fun e => !decide (e.time < now - seconds 10)) := by
    unfold TrackMouseClick prune
    exact remove_if_eq_filter _ _
  have h10 : ¬ now < now - seconds 10 := by unfold seconds; omega
  have h2 : TrackMouseClick now x y w
      = w.filter (fun e => !decide (e.time < now - seconds 10)) ++ [({ time := now, x := x, y := y } : ClickEvent)] := by
    rw [h1, List.filter_append]
    congr 1
    simp [List.filter, h10]
  refine ⟨h1, h2, ?_⟩
  rw [h2]
  simp

/-- C8: every window reached from the empty one by `TrackMouseClick` calls with
non-decreasing clock readings has non-decreasing timestamps, each within
`[now_last - 10s, now_last]`; and each such call preserves this invariant. -/
theorem window_invariant :
    (∀ (calls : List ClickEvent) (l : ClickEvent), NonDecreasing calls →
      calls.getLast? = some l → WindowInv l.time (recordAll calls [])) ∧
    (∀ (w : List ClickEvent) (now now2 x y : Int), WindowInv now w → now ≤ now2 →
      WindowInv now2 (TrackMouseClick now2 x y w)) :=
  ⟨fun calls l hs hl => recordAll_inv calls hs l hl,
   fun w now now2 x y hinv hle => TrackMouseClick_preserves w now now2 x y hinv hle⟩

/-- C8 witness: the run 0 s, 5 s, 12 s reaches an invariant window, and a further
call at 13 s keeps the invariant. -/
theorem window_invariant_witness :
    WindowInv 12000000000
      (recordAll [⟨0, 1, 2⟩, ⟨5000000000, 3, 4⟩, ⟨12000000000, 7, 8⟩] []) ∧
    WindowInv 13000000000
      (TrackMouseClick 13000000000 9 9
        (recordAll [⟨0, 1, 2⟩, ⟨5000000000, 3, 4⟩, ⟨12000000000, 7, 8⟩] [])) :=
  ⟨window_invariant.1 [⟨0, 1, 2⟩, ⟨5000000000, 3, 4⟩, ⟨12000000000, 7, 8⟩]
      ⟨12000000000, 7, 8⟩ (by decide) rfl,
   window_invariant.2 _ 12000000000 13000000000 9 9
      (window_invariant.1 [⟨0, 1, 2⟩, ⟨5000000000, 3, 4⟩, ⟨12000000000, 7, 8⟩]
        ⟨12000000000, 7, 8⟩ (by decide) rfl) (by decide)⟩

/-- C9: the prune step of `TrackMouseClick` is idempotent: erasing every entry
with `time < cutoff` twice with the same cutoff gives the same window as once. -/
theorem prune_idempotent (cutoff : Int) (w : List ClickEvent) :
    prune cutoff (prune cutoff w) = prune cutoff w := by
  rw [prune_eq_filter, prune_eq_filter, List.filter_filter]
  simp

/-- C3: on an `HC_ACTION` call with a non-null event struct, `LowLevelMouseProc`
blocks the event (returns 1 without calling the next hook) iff bit 0x1 or bit
0x2 of `flags` is set; otherwise it calls the next hook and returns its result;
the bits of `flags` other than these two do not matter. -/
theorem injection_blocking (next : Int → Nat → Option MSLLHOOKSTRUCT → Int)
    (wParam : Nat) (s : MSLLHOOKSTRUCT) :
    (((LowLevelMouseProc next HC_ACTION wParam (some s)).result = 1 ∧
        (LowLevelMouseProc next HC_ACTION wParam (some s)).calledNext = false) ↔
      (s.flags.testBit 0 = true ∨ s.flags.testBit 1 = true)) ∧
    (LowLevelMouseProc next HC_ACTION wParam (some s)
      = if s.flags.testBit 0 = true ∨ s.flags.testBit 1 = true then
          { result := 1, calledNext := false, cout := ["Emulated mouse input detected!"] }
        else
          { result := next HC_ACTION wParam (some s), calledNext := true, cout := [] }) ∧
    ((LowLevelMouseProc next HC_ACTION wParam (some s)).calledNext
      = (LowLevelMouseProc next HC_ACTION wParam
          (some { s with flags := s.flags % 4 })).calledNext) := by
  refine ⟨?_, LowLevelMouseProc_action next wParam s, ?_⟩
  · rw [LowLevelMouseProc_action]
    by_cases h : s.flags.testBit 0 = true ∨ s.flags.testBit 1 = true
    · rw [if_pos h]
      exact ⟨fun _ => h, fun _ => ⟨rfl, rfl⟩⟩
    · rw [if_neg h]
      exact ⟨fun hb => absurd hb.2 Bool.noConfusion, fun hb => absurd hb h⟩
  · rw [LowLevelMouseProc_action, LowLevelMouseProc_action]
    have h4 : (4 : Nat) = 2 ^ 2 := rfl
    have e0 : (s.flags % 4).testBit 0 = s.flags.testBit 0 := by
      rw [h4, Nat.testBit_mod_two_pow]; simp
    have e1 : (s.flags % 4).testBit 1 = s.flags.testBit 1 := by
      rw [h4, Nat.testBit_mod_two_pow]; simp
    simp only [e0, e1]
    by_cases h : s.flags.testBit 0 = true ∨ s.flags.testBit 1 = true
    · rw [if_pos h, if_pos h]
    · rw [if_neg h, if_neg h]

/-- C5 fails on the code: when the second `GetRawInputData` call returns
`(UINT)-1` instead of the 48 bytes asked for and the buffer reads as a mouse
event with the left-button-down bit, `ProcessRawInput` writes the error line
but still records the click; on an empty window the window changes, and on a
window whose last click is 5 ms old the suspicious-pattern line is written. -/
theorem malformed_event_still_processed :
    ProcessRawInput
        { dwSize := 48, lpbNull := false, copied := 4294967295,
          raw := { dwType := 0, usButtonFlags := 1, lLastX := 7, lLastY := 9 } }
        1005000000 []
      = { clickEvents := [⟨1005000000, 7, 9⟩],
          cerr := ["GetRawInputData does not return correct size."],
          cout := [] } ∧
    ProcessRawInput
        { dwSize := 48, lpbNull := false, copied := 4294967295,
          raw := { dwType := 0, usButtonFlags := 1, lLastX := 7, lLastY := 9 } }
        1005000000 [⟨1000000000, 3, 4⟩]
      = { clickEvents := [⟨1000000000, 3, 4⟩, ⟨1005000000, 7, 9⟩],
          cerr := ["GetRawInputData does not return correct size."],
          cout := ["Suspicious mouse click pattern detected!"] } := by
  constructor <;> rfl

/-- C6: for a successfully retrieved raw event, `ProcessRawInput` touches the
window only when the device type is mouse and the left-button-down bit is set;
then the new window is `TrackMouseClick` of the old one and the
suspicious-pattern line is written iff `IsSuspiciousClickPattern` holds on the
updated window; otherwise the window is unchanged and nothing is written. -/
theorem facade_dispatch (d : RawInputDelivery) (now : Int) (w : List ClickEvent)
    (halloc : d.lpbNull = false) (hok : d.copied = d.dwSize) :
    ProcessRawInput d now w
      = if d.raw.dwType = RIM_TYPEMOUSE ∧ d.raw.usButtonFlags.testBit 0 = true then
          { clickEvents := TrackMouseClick now d.raw.lLastX d.raw.lLastY w,
            cerr := [],
            cout :=
              if IsSuspiciousClickPattern (TrackMouseClick now d.raw.lLastX d.raw.lLastY w)
              then ["Suspicious mouse click pattern detected!"] else [] }
        else
          { clickEvents := w, cerr := [], cout := [] } := by
  unfold ProcessRawInput
  have e0 : d.raw.usButtonFlags &&& RI_MOUSE_LEFT_BUTTON_DOWN = 0 ↔
      ¬ d.raw.usButtonFlags.testBit 0 = true := by
    rw [← and_LEFT_BUTTON_DOWN_ne_zero_iff, not_not]
  by_cases hm : d.raw.dwType = RIM_TYPEMOUSE <;>
    by_cases hb : d.raw.usButtonFlags.testBit 0 = true <;>
    by_cases hsus :
      IsSuspiciousClickPattern (TrackMouseClick now d.raw.lLastX d.raw.lLastY w) = true <;>
    simp [halloc, hok, hm, hb, hsus, e0]

/-- C6 witness: a mouse left-button-down event 5 ms after the previous click is
recorded and reported, and a keyboard event (device type 1) changes nothing. -/
theorem facade_dispatch_witness :
    ProcessRawInput
        { dwSize := 48, lpbNull := false, copied := 48,
          raw := { dwType := 0, usButtonFlags := 1, lLastX := 7, lLastY := 9 } }
        1005000000 [⟨1000000000, 3, 4⟩]
      = { clickEvents := [⟨1000000000, 3, 4⟩, ⟨1005000000, 7, 9⟩], cerr := [],
          cout := ["Suspicious mouse click pattern detected!"] } ∧
    ProcessRawInput
        { dwSize := 32, lpbNull := false, copied := 32,
          raw := { dwType := 1, usButtonFlags := 1, lLastX := 7, lLastY := 9 } }
        1005000000 [⟨1000000000, 3, 4⟩]
      = { clickEvents := [⟨1000000000, 3, 4⟩], cerr := [], cout := [] } :=
  ⟨(facade_dispatch _ 1005000000 [⟨1000000000, 3, 4⟩] rfl rfl).trans (by decide),
   (facade_dispatch _ 1005000000 [⟨1000000000, 3, 4⟩] rfl rfl).trans (by decide)⟩

/-- C10: for a window `w` with non-decreasing timestamps and a clock reading
`now` not before its last timestamp, (a) a pair of adjacent entries less than
20 ms apart whose older entry has `time ≥ now - 10s` keeps
`IsSuspiciousClickPattern` true after `TrackMouseClick` at `now`; (b) if
`IsSuspiciousClickPattern` is false on `w` and `now` is at least 20 ms after the
last timestamp, it is false after `TrackMouseClick` at `now`. -/
theorem suspicion_sticky_not_created (w : List ClickEvent) (now x y : Int)
    (hs : NonDecreasing w) (hnow : ∀ l, w.getLast? = some l → l.time ≤ now) :
    (∀ i a b, 1 ≤ i → w[i - 1]? = some a → w[i]? = some b →
      duration_cast_ms (b.time - a.time) < 20 → now - seconds 10 ≤ a.time →
      IsSuspiciousClickPattern (TrackMouseClick now x y w) = true) ∧
    (IsSuspiciousClickPattern w = false →
      (∀ l, w.getLast? = some l → l.time + 20000000 ≤ now) →
      IsSuspiciousClickPattern (TrackMouseClick now x y w) = false) := by
  have hp := (nonDecreasing_iff_pairwise w).1 hs
  constructor
  · intro i a b hi ha hb hfast hold
    by_contra hne
    rw [Bool.not_eq_true, IsSuspiciousClickPattern_eq_false_iff, TrackMouseClick_eq] at hne
    obtain ⟨l1, l2, hw⟩ := split_at_adjacent w i a b hi ha hb
    subst hw
    rw [List.pairwise_append] at hp
    have hkeep : (a :: b :: l2).filter (fun e => decide (now - seconds 10 ≤ e.time))
        = a :: b :: l2 := by
      rw [List.filter_eq_self]
      intro e he
      rcases List.mem_cons.1 he with rfl | he
      · simpa using hold
      · have := (List.pairwise_cons.1 hp.2.1).1 e he
        simp only [decide_eq_true_eq]
        omega
    rw [List.filter_append, hkeep] at hne
    have hinf : [a, b] <:+: l1.filter (fun e => decide (now - seconds 10 ≤ e.time))
        ++ a :: b :: l2 ++ [{ time := now, x := x, y := y }] :=
      ⟨l1.filter (fun e => decide (now - seconds 10 ≤ e.time)),
        l2 ++ [{ time := now, x := x, y := y }], by simp⟩
    have hpair : List.Chain' SlowPair [a, b] := List.Chain'.infix hne hinf
    have hslow : SlowPair a b := (List.chain'_cons.1 hpair).1
    unfold SlowPair at hslow
    omega
  · intro hfalse hgap
    rw [IsSuspiciousClickPattern_eq_false_iff] at hfalse ⊢
    rw [TrackMouseClick_eq]
    have hsuf := filter_suffix_of_pairwise (now - seconds 10) w hp
    refine (hfalse.suffix hsuf).append (List.chain'_singleton _) ?_
    intro p hp2 q hq
    have hq2 : q = { time := now, x := x, y := y } := by simpa using hq.symm
    subst hq2
    have := hgap p (getLast?_of_suffix _ w p hsuf hp2)
    unfold SlowPair
    have hnot := (duration_cast_ms_lt_20_iff (now - p.time)).not.2 (by omega)
    simp only at hnot ⊢
    omega

/-- C10 witness: (a) the fast pair 0 ms / 5 ms keeps a click at 1 s suspicious;
(b) the slow window 0 ms / 100 ms stays unsuspicious after a click at 1 s. -/
theorem suspicion_sticky_not_created_witness :
    IsSuspiciousClickPattern
        (TrackMouseClick 1000000000 7 9 [⟨0, 1, 2⟩, ⟨5000000, 3, 4⟩]) = true ∧
    IsSuspiciousClickPattern
        (TrackMouseClick 1000000000 7 9 [⟨0, 1, 2⟩, ⟨100000000, 3, 4⟩]) = false :=
  ⟨(suspicion_sticky_not_created [⟨0, 1, 2⟩, ⟨5000000, 3, 4⟩] 1000000000 7 9 (by decide)
      (by decide)).1 1 ⟨0, 1, 2⟩ ⟨5000000, 3, 4⟩ (by decide) rfl rfl (by decide) (by decide),
   (suspicion_sticky_not_created [⟨0, 1, 2⟩, ⟨100000000, 3, 4⟩] 1000000000 7 9 (by decide)
      (by decide)).2 (by decide) (by decide)⟩

end ValorantTrigerDetector
